import Mathlib

/-!
Shallow embedding of the job-orchestrator leasing core: the `Job` data model
(src/app/models/job.py), the pure policy functions (src/app/core/leasing.py),
the repository queries and named transitions (src/app/repositories/job.py),
the leasing service operations (src/app/services/leasing.py), the job CRUD
service's cancel path (src/app/services/job.py), and the executor's
handler-lookup branch (src/app/services/worker/executor.py with
src/app/handlers/registry.py).

The backing store is modelled as a list of job rows; each service operation is
an atomic function from store state to store state (the row lock taken by
`SELECT ... FOR UPDATE SKIP LOCKED` serialises claiming transactions, so a
claim is one atomic step).  Timestamps are integers (seconds), payloads are
opaque strings, and the Python truthiness of `x or default` is made explicit.
-/

namespace JobOrch

/-- Job lifecycle states, from the `JobStatus` enum in src/app/models/job.py. -/
inductive JobStatus where
  | scheduled
  | queued
  | running
  | succeeded
  | failed
  | cancelled
  | dead
deriving DecidableEq, Repr

/-- One row of the jobs table (src/app/models/job.py, class Job). -/
structure Job where
  id : Nat
  queue : String
  handler : String
  payload : String
  status : JobStatus
  run_at : Int
  priority : Int
  max_attempts : Nat
  attempts : Nat
  timeout_secs : Nat
  lease_owner : Option String
  lease_expires_at : Option Int
  heartbeat_at : Option Int
  last_error : Option String
  created_at : Int
deriving DecidableEq, Repr

/-- `compute_lease_expiry` (src/app/core/leasing.py): `now + lease_seconds`. -/
def compute_lease_expiry (now : Int) (lease_seconds : Int) : Int :=
  now + lease_seconds

/-- `calculate_retry_delay` (src/app/core/leasing.py):
`min(5 * 2 ** attempts, 3600)` seconds. -/
def calculate_retry_delay (attempts : Nat) : Int :=
  min (5 * 2 ^ attempts) 3600

/-- `compute_next_run_at` (src/app/core/leasing.py). -/
def compute_next_run_at (now : Int) (attempts : Nat) : Int :=
  now + calculate_retry_delay attempts

/-- `can_claim_job` (src/app/core/leasing.py): the job must exist, have
status in `(JobStatus.queued, JobStatus.failed)`, and `run_at <= now`. -/
def can_claim_job (job : Option Job) (now : Int) : Bool :=
  match job with
  | none => false
  | some j =>
    if ¬ (j.status = JobStatus.queued ∨ j.status = JobStatus.failed) then false
    else if now < j.run_at then false
    else true

/-- The claimability predicate as the specification words it
(spec.md section 4.1): status in queued or scheduled, `run_at ≤ now`. -/
def can_claim_spec (job : Option Job) (now : Int) : Bool :=
  match job with
  | none => false
  | some j =>
    (j.status = JobStatus.queued ∨ j.status = JobStatus.scheduled) ∧ j.run_at ≤ now

/-- `owns_lease` (src/app/core/leasing.py). -/
def owns_lease (job : Option Job) (worker_id : String) : Bool :=
  match job with
  | none => false
  | some j =>
    if ¬ j.status = JobStatus.running then false
    else if ¬ j.lease_owner = some worker_id then false
    else true

/-- `is_lease_expired` (src/app/core/leasing.py). -/
def is_lease_expired (j : Job) (now : Int) : Bool :=
  match j.lease_expires_at with
  | none => true
  | some t => decide (t < now)

/-- `has_retries_remaining` (src/app/core/leasing.py). -/
def has_retries_remaining (j : Job) : Bool :=
  decide (j.attempts < j.max_attempts)

/-- The three completion outcomes (class JobOutcome, src/app/core/leasing.py). -/
inductive JobOutcome where
  | succeeded
  | retry
  | dead
deriving DecidableEq, Repr

/-- `decide_completion_outcome` (src/app/core/leasing.py): the check uses
`attempts + 1` because the caller increments afterwards. -/
def decide_completion_outcome (j : Job) (success : Bool) : JobOutcome :=
  if success then JobOutcome.succeeded
  else if j.max_attempts ≤ j.attempts + 1 then JobOutcome.dead
  else JobOutcome.retry

/-- The claim query's status filter (src/app/repositories/job.py line 103). -/
def runnable_statuses : List JobStatus :=
  [JobStatus.queued, JobStatus.scheduled]

/-- The WHERE clause of `find_next_runnable_job` (src/app/repositories/job.py):
queue in the requested list, status queued or scheduled, `run_at <= now`. -/
def is_runnable (queues : List String) (now : Int) (j : Job) : Bool :=
  queues.contains j.queue && runnable_statuses.contains j.status
    && decide (j.run_at ≤ now)

/-- The ORDER BY of `find_next_runnable_job`: priority DESC, run_at ASC,
created_at ASC.  `claim_order_before a b` holds when row `a` sorts strictly
before row `b`. -/
def claim_order_before (a b : Job) : Bool :=
  decide (b.priority < a.priority)
    || (a.priority == b.priority
        && (decide (a.run_at < b.run_at)
            || (a.run_at == b.run_at && decide (a.created_at < b.created_at))))

/-- LIMIT 1 under the claim ordering: the first row of the sorted result set
(ties keep the earlier list element, matching an unspecified tie order). -/
def pick_first_by_order (l : List Job) : Option Job :=
  l.foldl
    (fun acc j =>
      match acc with
      | none => some j
      | some a => if claim_order_before j a then some j else some a)
    none

/-- `find_next_runnable_job` (src/app/repositories/job.py lines 92-114). -/
def find_next_runnable_job (jobs : List Job) (queues : List String) (now : Int) :
    Option Job :=
  pick_first_by_order (jobs.filter (is_runnable queues now))

/-- The WHERE clause of `find_expired_leases`: status running and
`lease_expires_at < now` (a NULL lease never compares true in SQL). -/
def is_expired_running (now : Int) (j : Job) : Bool :=
  j.status == JobStatus.running
    && (match j.lease_expires_at with
        | some t => decide (t < now)
        | none => false)

/-- `find_expired_leases` (src/app/repositories/job.py lines 116-125). -/
def find_expired_leases (jobs : List Job) (now : Int) : List Job :=
  jobs.filter (is_expired_running now)

/-- `set_running` (src/app/repositories/job.py). -/
def set_running (j : Job) (owner : String) (expires : Int) (hb : Int) : Job :=
  { j with
    status := JobStatus.running
    lease_owner := some owner
    lease_expires_at := some expires
    heartbeat_at := some hb }

/-- `set_heartbeat` (src/app/repositories/job.py). -/
def set_heartbeat (j : Job) (expires : Int) (hb : Int) : Job :=
  { j with lease_expires_at := some expires, heartbeat_at := some hb }

/-- `set_succeeded` (src/app/repositories/job.py). -/
def set_succeeded (j : Job) : Job :=
  { j with
    status := JobStatus.succeeded
    lease_owner := none
    lease_expires_at := none }

/-- `set_failed` (src/app/repositories/job.py). -/
def set_failed (j : Job) (error : String) : Job :=
  { j with
    status := JobStatus.failed
    last_error := some error
    lease_owner := none
    lease_expires_at := none }

/-- `set_dead` (src/app/repositories/job.py). -/
def set_dead (j : Job) (error : String) : Job :=
  { j with
    status := JobStatus.dead
    last_error := some error
    lease_owner := none
    lease_expires_at := none }

/-- `set_queued_for_retry` (src/app/repositories/job.py). -/
def set_queued_for_retry (j : Job) (run_at : Int) : Job :=
  { j with
    status := JobStatus.queued
    run_at := run_at
    lease_owner := none
    lease_expires_at := none
    heartbeat_at := none }

/-- `increment_attempts` (src/app/repositories/job.py lines 193-197). -/
def increment_attempts (j : Job) : Job :=
  { j with attempts := j.attempts + 1 }

/-- `get_by_id` (src/app/repositories/job.py): fetch a row by primary key. -/
def get_by_id (jobs : List Job) (job_id : Nat) : Option Job :=
  jobs.find? (fun j => j.id == job_id)

/-- Committing the mutation of the row with the given id: every row carrying
that primary key is replaced by the mutated object. -/
def update_job (jobs : List Job) (job_id : Nat) (new : Job) : List Job :=
  jobs.map (fun j => if j.id == job_id then new else j)

/-- Python `x or default` on an optional integer: `None` and `0` are falsy. -/
def py_or_int (v : Option Int) (default : Int) : Int :=
  match v with
  | none => default
  | some x => if x == 0 then default else x

/-- Python `x or default` on an optional string: `None` and `""` are falsy. -/
def py_or_str (v : Option String) (default : String) : String :=
  match v with
  | none => default
  | some s => if s == "" then default else s

/-- The leasing service's configuration (src/app/services/leasing.py). -/
structure LeasingService where
  default_lease_seconds : Int := 60
deriving DecidableEq, Repr

/-- `LeasingService.claim_next_job` (src/app/services/leasing.py lines 30-62):
one atomic claiming transaction.  The repository call is resolved to
`find_next_runnable_job`, the query defined in src/app/repositories/job.py.
Returns the claimed job (already stamped running) and the committed store. -/
def claim_next_job (svc : LeasingService) (jobs : List Job) (worker_id : String)
    (queues : List String) (lease_seconds : Option Int) (now : Int) :
    Option Job × List Job :=
  let ls := py_or_int lease_seconds svc.default_lease_seconds
  let expires := compute_lease_expiry now ls
  match find_next_runnable_job jobs queues now with
  | none => (none, jobs)
  | some job =>
    let claimed := set_running job worker_id expires now
    (some claimed, update_job jobs job.id claimed)

/-- `LeasingService.heartbeat` (src/app/services/leasing.py lines 64-89). -/
def heartbeat (svc : LeasingService) (jobs : List Job) (job_id : Nat)
    (worker_id : String) (lease_seconds : Option Int) (now : Int) :
    Bool × List Job :=
  let ls := py_or_int lease_seconds svc.default_lease_seconds
  match get_by_id jobs job_id with
  | none => (false, jobs)
  | some job =>
    if ¬ owns_lease (some job) worker_id then (false, jobs)
    else
      let expires := compute_lease_expiry now ls
      (true, update_job jobs job.id (set_heartbeat job expires now))

/-- `LeasingService.complete_job` (src/app/services/leasing.py lines 91-128).
In the RETRY branch the attempts counter is incremented first, and the next
run time is computed from the incremented count. -/
def complete_job (svc : LeasingService) (jobs : List Job) (job_id : Nat)
    (worker_id : String) (success : Bool) (error : Option String) (now : Int) :
    Bool × List Job :=
  match get_by_id jobs job_id with
  | none => (false, jobs)
  | some job =>
    if ¬ owns_lease (some job) worker_id then (false, jobs)
    else
      match decide_completion_outcome job success with
      | JobOutcome.succeeded =>
        (true, update_job jobs job.id (set_succeeded job))
      | JobOutcome.dead =>
        let job1 := increment_attempts job
        (true, update_job jobs job.id
          (set_dead job1 (py_or_str error "Max attempts exceeded")))
      | JobOutcome.retry =>
        let job1 := increment_attempts job
        let next_run := compute_next_run_at now job1.attempts
        let job2 := set_failed job1 (py_or_str error "Unknown error")
        (true, update_job jobs job.id (set_queued_for_retry job2 next_run))

/-- The per-row body of `recover_expired_leases`: increment attempts, then
either requeue with backoff on the new count or mark dead. -/
def recover_job (now : Int) (j : Job) : Job :=
  let j1 := increment_attempts j
  if has_retries_remaining j1 then
    set_queued_for_retry j1 (compute_next_run_at now j1.attempts)
  else
    set_dead j1 "Lease expired - worker presumed dead"

/-- `LeasingService.recover_expired_leases` (src/app/services/leasing.py
lines 130-153): every running row with an expired lease is processed; the
returned count is the number of rows requeued (not the ones marked dead). -/
def recover_expired_leases (jobs : List Job) (now : Int) : Nat × List Job :=
  ((find_expired_leases jobs now).countP
      (fun j => has_retries_remaining (increment_attempts j)),
   jobs.map (fun j => if is_expired_running now j then recover_job now j else j))

/-- The statuses `JobService.cancel_job` refuses to cancel
(src/app/services/job.py line 92). -/
def terminal_for_cancel : List JobStatus :=
  [JobStatus.succeeded, JobStatus.failed, JobStatus.dead, JobStatus.cancelled]

/-- `JobService.cancel_job` (src/app/services/job.py lines 82-102): sets
status cancelled and clears both lease fields in the same update. -/
def cancel_job (jobs : List Job) (job_id : Nat) : Option Job × List Job :=
  match get_by_id jobs job_id with
  | none => (none, jobs)
  | some job =>
    if terminal_for_cancel.contains job.status then (none, jobs)
    else
      let cancelled :=
        { job with
          status := JobStatus.cancelled
          lease_owner := none
          lease_expires_at := none }
      (some cancelled, update_job jobs job.id cancelled)

/-- The executor's structured result (class ExecutionResult,
src/app/services/worker/executor.py). -/
structure ExecutionResult where
  success : Bool
  error_message : Option String
  duration_seconds : Option Int
deriving DecidableEq, Repr

/-- A raised Python exception as the executor sees it: its type name and its
message. -/
structure PyException where
  exc_type : String
  exc_message : String

/-- `JobExecutor._format_exception`: `"<type>: <message>"`, or just the type
name when the message is empty. -/
def format_exception (e : PyException) : String :=
  if e.exc_message = "" then e.exc_type else e.exc_type ++ ": " ++ e.exc_message

/-- The handler registry (class HandlerRegistry, src/app/handlers/registry.py):
a name-to-handler mapping; a handler consumes the payload and either returns
(none) or raises (some exception). -/
structure HandlerRegistry where
  handlers : List (String × (String → Option PyException))

/-- `HandlerRegistry.exists` (src/app/handlers/registry.py). -/
def registry_has (reg : HandlerRegistry) (name : String) : Bool :=
  reg.handlers.any (fun h => h.1 == name)

/-- Lexicographic at-most on sequences over a linear order: how Python
compares two strings code point by code point. -/
def lex_le {α : Type} [LinearOrder α] : List α → List α → Bool
  | [], _ => true
  | _ :: _, [] => false
  | c :: cs, d :: ds =>
    if c < d then true
    else if d < c then false
    else lex_le cs ds

/-- Insert one name into an already sorted list of names. -/
def insert_name (s : String) : List String → List String
  | [] => [s]
  | x :: xs => if lex_le s.data x.data then s :: x :: xs else x :: insert_name s xs

/-- Python `sorted` on the registry's key list: insertion sort under the
code-point lexicographic order. -/
def sort_names (l : List String) : List String :=
  l.foldr insert_name []

/-- `HandlerRegistry.list` (src/app/handlers/registry.py): the sorted handler
names. -/
def registry_names (reg : HandlerRegistry) : List String :=
  sort_names (reg.handlers.map Prod.fst)

/-- `HandlerRegistry.get`, as an option instead of a KeyError. -/
def registry_get (reg : HandlerRegistry) (name : String) :
    Option (String → Option PyException) :=
  (reg.handlers.find? (fun h => h.1 == name)).map Prod.snd

/-- `JobExecutor._handler_not_found_error`
(src/app/services/worker/executor.py lines 140-153). -/
def handler_not_found_error (handler_name : String) (reg : HandlerRegistry) :
    String :=
  let available := String.intercalate ", " (registry_names reg)
  "Handler '" ++ handler_name ++ "' not registered. Available handlers: ["
    ++ available ++ "]"

/-- `JobExecutor.execute` (src/app/services/worker/executor.py lines 72-134).
The wall-clock duration of a handler run is an input of the model. -/
def execute (reg : HandlerRegistry) (j : Job) (duration : Int) :
    ExecutionResult :=
  if ¬ registry_has reg j.handler then
    { success := false
      error_message := some (handler_not_found_error j.handler reg)
      duration_seconds := none }
  else
    match registry_get reg j.handler with
    | none =>
      { success := false
        error_message := some (handler_not_found_error j.handler reg)
        duration_seconds := none }
    | some f =>
      match f j.payload with
      | none =>
        { success := true, error_message := none
          duration_seconds := some duration }
      | some e =>
        { success := false, error_message := some (format_exception e)
          duration_seconds := some duration }

/-- One call against the store in a Complete/RecoverExpired sequence. -/
inductive LeaseOp where
  | complete (job_id : Nat) (worker_id : String) (success : Bool)
      (error : Option String) (now : Int)
  | recover (now : Int)

/-- The store after one Complete or RecoverExpired call. -/
def apply_lease_op (svc : LeasingService) (jobs : List Job) : LeaseOp → List Job
  | LeaseOp.complete jid w s e t => (complete_job svc jobs jid w s e t).2
  | LeaseOp.recover t => (recover_expired_leases jobs t).2

/-- The store after a sequence of Complete/RecoverExpired calls. -/
def apply_lease_ops (svc : LeasingService) (jobs : List Job)
    (ops : List LeaseOp) : List Job :=
  ops.foldl (apply_lease_op svc) jobs

/-- A freshly created queued job on the default queue, due at time 0. -/
def sampleQueuedJob : Job :=
  { id := 1
    queue := "default"
    handler := "send_email"
    payload := ""
    status := JobStatus.queued
    run_at := 0
    priority := 0
    max_attempts := 5
    attempts := 0
    timeout_secs := 300
    lease_owner := none
    lease_expires_at := none
    heartbeat_at := none
    last_error := none
    created_at := 0 }

/-- A scheduled job whose run_at has already been reached. -/
def scheduledDueJob : Job :=
  { sampleQueuedJob with status := JobStatus.scheduled }

/-- A running job leased to worker w1 with lease expiring at time 60. -/
def runningLeasedJob : Job :=
  { sampleQueuedJob with
    status := JobStatus.running
    lease_owner := some "w1"
    lease_expires_at := some 60
    heartbeat_at := some 0 }

/-- A service configured with the default sixty-second lease. -/
def defaultService : LeasingService := {}

/- ───────────────────────── helper lemmas ───────────────────────── -/

theorem owns_lease_eq_true_iff (j : Job) (w : String) :
    owns_lease (some j) w = true ↔
      j.status = JobStatus.running ∧ j.lease_owner = some w := by
  by_cases h1 : j.status = JobStatus.running <;>
    by_cases h2 : j.lease_owner = some w <;>
      simp [owns_lease, h1, h2]

theorem mem_update_job {jobs : List Job} {jid : Nat} {new x : Job}
    (hx : x ∈ update_job jobs jid new) :
    x = new ∨ (x ∈ jobs ∧ x.id ≠ jid) := by
  unfold update_job at hx
  obtain ⟨a, ha, hax⟩ := List.mem_map.mp hx
  by_cases hid : a.id = jid
  · left
    simpa [hid] using hax.symm
  · right
    rw [if_neg (by simpa using hid)] at hax
    subst hax
    exact ⟨ha, hid⟩

theorem pick_first_by_order_mem {l : List Job} {j : Job}
    (h : pick_first_by_order l = some j) : j ∈ l := by
  unfold pick_first_by_order at h
  suffices H : ∀ (l : List Job) (acc : Option Job) (j : Job),
      l.foldl
        (fun acc j =>
          match acc with
          | none => some j
          | some a => if claim_order_before j a then some j else some a)
        acc = some j → acc = some j ∨ j ∈ l by
    rcases H l none j h with h' | h'
    · exact absurd h' (by simp)
    · exact h'
  intro l
  induction l with
  | nil =>
    intro acc j h
    exact Or.inl h
  | cons x xs ih =>
    intro acc j h
    rcases ih _ j h with h' | h'
    · cases acc with
      | none =>
        simp at h'
        subst h'
        exact Or.inr (List.mem_cons_self _ _)
      | some a =>
        by_cases hb : claim_order_before x a = true
        · simp [hb] at h'
          subst h'
          exact Or.inr (List.mem_cons_self _ _)
        · simp [hb] at h'
          exact Or.inl (by rw [h'])
    · exact Or.inr (List.mem_cons_of_mem _ h')

theorem find_next_runnable_job_sound {jobs : List Job} {queues : List String}
    {now : Int} {j : Job} (h : find_next_runnable_job jobs queues now = some j) :
    j ∈ jobs ∧ is_runnable queues now j = true := by
  unfold find_next_runnable_job at h
  have hmem := pick_first_by_order_mem h
  exact ⟨(List.mem_filter.mp hmem).1, (List.mem_filter.mp hmem).2⟩

theorem get_by_id_some {jobs : List Job} {jid : Nat} {j : Job}
    (h : get_by_id jobs jid = some j) : j ∈ jobs ∧ j.id = jid := by
  unfold get_by_id at h
  refine ⟨List.mem_of_find?_eq_some h, ?_⟩
  have := List.find?_some h
  simpa using this

theorem lex_le_total {α : Type} [LinearOrder α] :
    ∀ a b : List α, lex_le a b = true ∨ lex_le b a = true := by
  intro a
  induction a with
  | nil =>
    intro b
    exact Or.inl rfl
  | cons c cs ih =>
    intro b
    cases b with
    | nil => exact Or.inr rfl
    | cons d ds =>
      rcases lt_trichotomy c d with h | h | h
      · left
        simp [lex_le, h]
      · subst h
        rcases ih ds with h' | h'
        · left
          simp [lex_le, h']
        · right
          simp [lex_le, h']
      · right
        simp [lex_le, h]

theorem lex_le_trans {α : Type} [LinearOrder α] :
    ∀ a b c : List α, lex_le a b = true → lex_le b c = true →
      lex_le a c = true := by
  intro a
  induction a with
  | nil =>
    intro b c _ _
    rfl
  | cons x xs ih =>
    intro b c hab hbc
    cases b with
    | nil => simp [lex_le] at hab
    | cons y ys =>
      cases c with
      | nil => simp [lex_le] at hbc
      | cons z zs =>
        rcases lt_trichotomy x y with hxy | hxy | hxy
        · rcases lt_trichotomy y z with hyz | hyz | hyz
          · simp [lex_le, lt_trans hxy hyz]
          · subst hyz
            simp [lex_le, hxy]
          · simp [lex_le, hyz, asymm hyz] at hbc
        · subst hxy
          rcases lt_trichotomy x z with hxz | hxz | hxz
          · simp [lex_le, hxz]
          · subst hxz
            simp only [lex_le, lt_irrefl, if_false] at hab hbc ⊢
            exact ih ys zs hab hbc
          · simp [lex_le, hxz, asymm hxz] at hbc
        · simp [lex_le, hxy, asymm hxy] at hab

theorem insert_name_perm (s : String) (l : List String) :
    (insert_name s l).Perm (s :: l) := by
  induction l with
  | nil => exact List.Perm.refl _
  | cons x xs ih =>
    by_cases h : lex_le s.data x.data = true
    · rw [insert_name, if_pos h]
    · rw [insert_name, if_neg h]
      exact (ih.cons x).trans (List.Perm.swap s x xs)

theorem sort_names_perm (l : List String) : (sort_names l).Perm l := by
  induction l with
  | nil => exact List.Perm.refl _
  | cons x xs ih =>
    rw [sort_names, List.foldr_cons]
    exact (insert_name_perm x _).trans (ih.cons x)

theorem insert_name_pairwise (s : String) (l : List String)
    (h : l.Pairwise (fun a b => lex_le a.data b.data = true)) :
    (insert_name s l).Pairwise (fun a b => lex_le a.data b.data = true) := by
  induction l with
  | nil => simp [insert_name]
  | cons x xs ih =>
    rcases List.pairwise_cons.mp h with ⟨hx, hxs⟩
    by_cases hcmp : lex_le s.data x.data = true
    · rw [insert_name, if_pos hcmp]
      refine List.pairwise_cons.mpr ⟨?_, h⟩
      intro y hy
      rcases List.mem_cons.mp hy with rfl | hy'
      · exact hcmp
      · exact lex_le_trans _ _ _ hcmp (hx y hy')
    · rw [insert_name, if_neg hcmp]
      refine List.pairwise_cons.mpr ⟨?_, ih hxs⟩
      intro y hy
      have hmem : y ∈ s :: xs := (insert_name_perm s xs).mem_iff.mp hy
      rcases List.mem_cons.mp hmem with hy1 | hy'
      · rw [hy1]
        rcases lex_le_total s.data x.data with htot | htot
        · exact absurd htot hcmp
        · exact htot
      · exact hx y hy'

theorem sort_names_pairwise (l : List String) :
    (sort_names l).Pairwise (fun a b => lex_le a.data b.data = true) := by
  induction l with
  | nil => exact List.Pairwise.nil
  | cons x xs ih =>
    rw [sort_names, List.foldr_cons]
    exact insert_name_pairwise x _ ih

/- ───────────────────────── C2: claimability predicate ───────────────────── -/

/-- C2 counterexample: a scheduled job that is already due is claimable per the
claim's wording, yet `can_claim_job` rejects it (the code tests the status
against queued and failed, not queued and scheduled). -/
theorem can_claim_job_scheduled_counterexample :
    scheduledDueJob.status = JobStatus.scheduled
      ∧ scheduledDueJob.run_at ≤ (0 : Int)
      ∧ can_claim_job (some scheduledDueJob) 0 = false := by
  decide

/-- C2 amended: `can_claim_job job now` is true iff the job exists, its status
is queued or failed, and its run_at is at most now. -/
theorem can_claim_job_eq_true_iff (job : Option Job) (now : Int) :
    can_claim_job job now = true ↔
      ∃ j, job = some j
        ∧ (j.status = JobStatus.queued ∨ j.status = JobStatus.failed)
        ∧ j.run_at ≤ now := by
  cases job with
  | none => simp [can_claim_job]
  | some j =>
    by_cases hs : j.status = JobStatus.queued ∨ j.status = JobStatus.failed <;>
      by_cases hr : now < j.run_at <;>
        simp [can_claim_job, hs, hr] <;> omega

/- ───────────────────────── C7: leaving running clears the lease ─────────── -/

/-- C7: each transition that moves a job out of running (set_succeeded,
set_failed, set_dead, set_queued_for_retry) and the user-initiated cancel
leave both lease fields null. -/
theorem leaving_running_clears_lease (j : Job) (err : String) (r : Int)
    (jobs : List Job) (jid : Nat) :
    ((set_succeeded j).lease_owner = none
        ∧ (set_succeeded j).lease_expires_at = none)
    ∧ ((set_failed j err).lease_owner = none
        ∧ (set_failed j err).lease_expires_at = none)
    ∧ ((set_dead j err).lease_owner = none
        ∧ (set_dead j err).lease_expires_at = none)
    ∧ ((set_queued_for_retry j r).lease_owner = none
        ∧ (set_queued_for_retry j r).lease_expires_at = none)
    ∧ (∀ c, (cancel_job jobs jid).1 = some c →
        c.status = JobStatus.cancelled ∧ c.lease_owner = none
          ∧ c.lease_expires_at = none) := by
  refine ⟨⟨rfl, rfl⟩, ⟨rfl, rfl⟩, ⟨rfl, rfl⟩, ⟨rfl, rfl⟩, ?_⟩
  intro c hc
  cases hg : get_by_id jobs jid with
  | none => simp [cancel_job, hg] at hc
  | some job =>
    by_cases ht : terminal_for_cancel.contains job.status = true
    · have ht' : job.status ∈ terminal_for_cancel := by simpa using ht
      simp [cancel_job, hg, ht'] at hc
    · simp only [cancel_job, hg] at hc
      rw [if_neg ht] at hc
      simp at hc
      subst hc
      exact ⟨rfl, rfl, rfl⟩

/- ───────────────────────── C8: recovery is one-shot ─────────────────────── -/

theorem recover_job_not_expired_running (now : Int) (j : Job) :
    is_expired_running now (recover_job now j) = false := by
  unfold recover_job
  by_cases h : has_retries_remaining (increment_attempts j) = true
  · simp [h, is_expired_running, set_queued_for_retry]
  · simp [h, is_expired_running, set_dead]

/-- C8: running RecoverExpired twice at the same instant makes the second call
return 0: the first call moved every expired running row to queued or dead, so
nothing matches the expired-lease query any more. -/
theorem recover_expired_twice_second_returns_zero (jobs : List Job) (now : Int) :
    (recover_expired_leases (recover_expired_leases jobs now).2 now).1 = 0 := by
  have hnil : find_expired_leases (recover_expired_leases jobs now).2 now = [] := by
    unfold find_expired_leases
    apply List.filter_eq_nil_iff.mpr
    intro x hx
    simp only [recover_expired_leases] at hx
    obtain ⟨a, _, hax⟩ := List.mem_map.mp hx
    by_cases hexp : is_expired_running now a = true
    · rw [if_pos hexp] at hax
      subst hax
      simp [recover_job_not_expired_running]
    · rw [if_neg hexp] at hax
      subst hax
      simpa using hexp
  conv_lhs =>
    rw [show (recover_expired_leases (recover_expired_leases jobs now).2 now).1
        = (find_expired_leases (recover_expired_leases jobs now).2 now).countP
            (fun j => has_retries_remaining (increment_attempts j)) from rfl]
  rw [hnil]
  rfl

/- ───────────────────────── C1: no double claim ──────────────────────────── -/

/-- C1: the skip-locked row lock serialises claiming transactions, so two
ClaimNext calls are two successive atomic steps on the store; the second can
never return the job the first returned, because the first committed
`status = running` and the claim query only selects queued or scheduled rows. -/
theorem claim_next_job_no_double_claim (svc : LeasingService) (jobs : List Job)
    (w1 w2 : String) (q1 q2 : List String) (ls1 ls2 : Option Int) (t1 t2 : Int)
    (j1 j2 : Job)
    (h1 : (claim_next_job svc jobs w1 q1 ls1 t1).1 = some j1)
    (h2 : (claim_next_job svc (claim_next_job svc jobs w1 q1 ls1 t1).2
        w2 q2 ls2 t2).1 = some j2) :
    j1.id ≠ j2.id := by
  intro hid
  cases hf1 : find_next_runnable_job jobs q1 t1 with
  | none => simp [claim_next_job, hf1] at h1
  | some f1 =>
    simp only [claim_next_job, hf1, Option.some.injEq] at h1
    have hstore : (claim_next_job svc jobs w1 q1 ls1 t1).2
        = update_job jobs f1.id j1 := by
      simp only [claim_next_job, hf1]
      rw [h1]
    rw [hstore] at h2
    cases hf2 : find_next_runnable_job (update_job jobs f1.id j1) q2 t2 with
    | none => simp [claim_next_job, hf2] at h2
    | some f2 =>
      simp only [claim_next_job, hf2, Option.some.injEq] at h2
      obtain ⟨hmem, hrun⟩ := find_next_runnable_job_sound hf2
      have hj1id : j1.id = f1.id := by rw [← h1]; rfl
      have hj2id : j2.id = f2.id := by rw [← h2]; rfl
      have hf2id : f2.id = f1.id := by rw [← hj2id, ← hid, hj1id]
      rcases mem_update_job hmem with heq | ⟨_, hne⟩
      · have hst : j1.status = JobStatus.running := by rw [← h1]; rfl
        rw [heq] at hrun
        simp [is_runnable, runnable_statuses, hst] at hrun
      · exact hne hf2id

/-- A second due queued job, identical to the first but for its id. -/
def secondQueuedJob : Job :=
  { sampleQueuedJob with id := 2 }

/-- The store after worker w1 claims from a two-job queue at time 0. -/
def claimedOnce : Option Job × List Job :=
  claim_next_job defaultService [sampleQueuedJob, secondQueuedJob] "w1"
    ["default"] none 0

/-- The store after worker w2 claims from what w1 left behind. -/
def claimedTwice : Option Job × List Job :=
  claim_next_job defaultService claimedOnce.2 "w2" ["default"] none 0

theorem claim_next_job_no_double_claim_witness :
    (claimedOnce.1.getD sampleQueuedJob).id
      ≠ (claimedTwice.1.getD sampleQueuedJob).id :=
  claim_next_job_no_double_claim defaultService
    [sampleQueuedJob, secondQueuedJob] "w1" "w2" ["default"] ["default"]
    none none 0 0
    (claimedOnce.1.getD sampleQueuedJob) (claimedTwice.1.getD sampleQueuedJob)
    (by decide) (by decide)

/- ───────────────────────── C3: empty claim is a no-op ───────────────────── -/

/-- C3 intended behaviour (the shipped call site raises AttributeError because
it names the query `find_next_runnable`): when no job is eligible, ClaimNext
returns none and commits the store unchanged. -/
theorem claim_next_job_none_of_no_runnable (svc : LeasingService)
    (jobs : List Job) (w : String) (q : List String) (ls : Option Int) (t : Int)
    (h : ∀ j ∈ jobs, is_runnable q t j = false) :
    claim_next_job svc jobs w q ls t = (none, jobs) := by
  have hfil : jobs.filter (is_runnable q t) = [] :=
    List.filter_eq_nil_iff.mpr (by intro a ha; simp [h a ha])
  simp [claim_next_job, find_next_runnable_job, hfil, pick_first_by_order]

theorem claim_next_job_none_of_no_runnable_witness :
    claim_next_job defaultService [runningLeasedJob] "w1" ["default"] none 0
      = (none, [runningLeasedJob]) :=
  claim_next_job_none_of_no_runnable defaultService [runningLeasedJob] "w1"
    ["default"] none 0 (by decide)

/- ───────────────────────── C5: non-owners cannot mutate ─────────────────── -/

/-- C5: when `owns_lease` fails (job absent, not running, or leased to another
worker), Heartbeat and Complete both return false and leave the store exactly
as it was. -/
theorem heartbeat_complete_not_owner_no_mutation (svc : LeasingService)
    (jobs : List Job) (jid : Nat) (w : String) (ls : Option Int)
    (success : Bool) (err : Option String) (t : Int)
    (h : owns_lease (get_by_id jobs jid) w = false) :
    heartbeat svc jobs jid w ls t = (false, jobs)
      ∧ complete_job svc jobs jid w success err t = (false, jobs) := by
  cases hg : get_by_id jobs jid with
  | none => exact ⟨by simp [heartbeat, hg], by simp [complete_job, hg]⟩
  | some job =>
    rw [hg] at h
    exact ⟨by simp [heartbeat, hg, h], by simp [complete_job, hg, h]⟩

theorem heartbeat_complete_not_owner_no_mutation_witness :
    heartbeat defaultService [sampleQueuedJob] 1 "intruder" none 5
        = (false, [sampleQueuedJob])
      ∧ complete_job defaultService [sampleQueuedJob] 1 "intruder" true none 5
        = (false, [sampleQueuedJob]) :=
  heartbeat_complete_not_owner_no_mutation defaultService [sampleQueuedJob] 1
    "intruder" none true none 5 (by decide)

/- ───────────────────────── C4: first failed completion ──────────────────── -/

/-- C4 counterexample: completing the first failure of a fresh running job
(attempts 0, max_attempts 5) at t = 0 leaves run_at = 10, not t + 5: the
backoff is `5 * 2 ** attempts` evaluated after the increment. -/
theorem complete_job_first_failure_counterexample :
    ((complete_job defaultService [runningLeasedJob] 1 "w1" false none 0).2.head?.map
        Job.run_at) = some 10
      ∧ ((10 : Int) ≠ 0 + 5) := by
  decide

/-- C4 amended: Complete(success=false) on a running job owned by the caller
with attempts = 0 and max_attempts = 5 returns true and leaves the row queued
with attempts = 1 and run_at = t + 10 (ten seconds of backoff, not five). -/
theorem complete_job_first_failure_retry (svc : LeasingService)
    (jobs : List Job) (jid : Nat) (w : String) (err : Option String) (t : Int)
    (j : Job)
    (hget : get_by_id jobs jid = some j)
    (hstat : j.status = JobStatus.running)
    (hown : j.lease_owner = some w)
    (ha : j.attempts = 0) (hm : j.max_attempts = 5) :
    (complete_job svc jobs jid w false err t).1 = true
      ∧ ∀ x ∈ (complete_job svc jobs jid w false err t).2, x.id = j.id →
          x.status = JobStatus.queued ∧ x.attempts = 1 ∧ x.run_at = t + 10 := by
  have howns : owns_lease (some j) w = true :=
    (owns_lease_eq_true_iff j w).mpr ⟨hstat, hown⟩
  have hout : decide_completion_outcome j false = JobOutcome.retry := by
    simp [decide_completion_outcome, ha, hm]
  constructor
  · simp [complete_job, hget, howns, hout]
  · intro x hx hxid
    simp only [complete_job, hget, howns, not_true_eq_false, if_false, hout] at hx
    rcases mem_update_job hx with heq | ⟨_, hne⟩
    · subst heq
      refine ⟨rfl, ?_, ?_⟩
      · simp [set_queued_for_retry, set_failed, increment_attempts, ha]
      · simp [set_queued_for_retry, set_failed, increment_attempts,
          compute_next_run_at, calculate_retry_delay, ha]
    · exact absurd hxid hne

theorem complete_job_first_failure_retry_witness :
    (complete_job defaultService [runningLeasedJob] 1 "w1" false none 0).1
      = true :=
  (complete_job_first_failure_retry defaultService [runningLeasedJob] 1 "w1"
    none 0 runningLeasedJob (by decide) (by decide) (by decide) (by decide)
    (by decide)).1

/- ───────────────────────── C6: attempts never exceed the cap ────────────── -/

/-- The inductive invariant behind claim C6: every job respects the cap, and a
running job still has an attempt in hand (its increment happens on leaving
running). -/
abbrev attempts_invariant (jobs : List Job) : Prop :=
  ∀ j ∈ jobs, j.attempts ≤ j.max_attempts
    ∧ (j.status = JobStatus.running → j.attempts < j.max_attempts)

theorem update_job_preserves_attempts_invariant {jobs : List Job} {jid : Nat}
    {new : Job} (h : attempts_invariant jobs)
    (hle : new.attempts ≤ new.max_attempts)
    (hrun : new.status = JobStatus.running → new.attempts < new.max_attempts) :
    attempts_invariant (update_job jobs jid new) := by
  intro x hx
  rcases mem_update_job hx with rfl | ⟨hmem, _⟩
  · exact ⟨hle, hrun⟩
  · exact h x hmem

theorem complete_job_preserves_attempts_invariant (svc : LeasingService)
    (jobs : List Job) (jid : Nat) (w : String) (s : Bool) (e : Option String)
    (t : Int) (h : attempts_invariant jobs) :
    attempts_invariant (complete_job svc jobs jid w s e t).2 := by
  cases hg : get_by_id jobs jid with
  | none => simpa [complete_job, hg] using h
  | some job =>
    by_cases howns : owns_lease (some job) w = true
    · obtain ⟨hrun, _⟩ := (owns_lease_eq_true_iff job w).mp howns
      have hjmem := (get_by_id_some hg).1
      have hlt : job.attempts < job.max_attempts := (h job hjmem).2 hrun
      cases ho : decide_completion_outcome job s with
      | succeeded =>
        simp only [complete_job, hg, howns, not_true_eq_false, if_false, ho]
        exact update_job_preserves_attempts_invariant h
          (le_of_lt hlt) (by simp [set_succeeded])
      | dead =>
        simp only [complete_job, hg, howns, not_true_eq_false, if_false, ho]
        refine update_job_preserves_attempts_invariant h ?_ (by simp [set_dead])
        simp [set_dead, increment_attempts]
        omega
      | retry =>
        simp only [complete_job, hg, howns, not_true_eq_false, if_false, ho]
        refine update_job_preserves_attempts_invariant h ?_
          (by simp [set_queued_for_retry])
        simp [set_queued_for_retry, set_failed, increment_attempts]
        omega
    · have hof : owns_lease (some job) w = false := by
        simpa using howns
      simpa [complete_job, hg, hof] using h

theorem recover_preserves_attempts_invariant (jobs : List Job) (t : Int)
    (h : attempts_invariant jobs) :
    attempts_invariant (recover_expired_leases jobs t).2 := by
  intro x hx
  simp only [recover_expired_leases] at hx
  obtain ⟨a, ha, hax⟩ := List.mem_map.mp hx
  by_cases hexp : is_expired_running t a = true
  · rw [if_pos hexp] at hax
    subst hax
    have hrun : a.status = JobStatus.running := by
      have hb := hexp
      simp only [is_expired_running, Bool.and_eq_true, beq_iff_eq] at hb
      exact hb.1
    have hlt : a.attempts < a.max_attempts := (h a ha).2 hrun
    simp only [recover_job]
    by_cases hr : has_retries_remaining (increment_attempts a) = true
    · rw [if_pos hr]
      constructor
      · simp [set_queued_for_retry, increment_attempts]
        omega
      · intro habs
        simp [set_queued_for_retry] at habs
    · rw [if_neg hr]
      constructor
      · simp [set_dead, increment_attempts]
        omega
      · intro habs
        simp [set_dead] at habs
  · rw [if_neg hexp] at hax
    subst hax
    exact h a ha

theorem apply_lease_op_preserves_attempts_invariant (svc : LeasingService)
    (jobs : List Job) (op : LeaseOp) (h : attempts_invariant jobs) :
    attempts_invariant (apply_lease_op svc jobs op) := by
  cases op with
  | complete jid w s e t =>
    exact complete_job_preserves_attempts_invariant svc jobs jid w s e t h
  | recover t =>
    exact recover_preserves_attempts_invariant jobs t h

theorem apply_lease_ops_preserves_attempts_invariant (svc : LeasingService)
    (jobs : List Job) (ops : List LeaseOp) (h : attempts_invariant jobs) :
    attempts_invariant (apply_lease_ops svc jobs ops) := by
  induction ops generalizing jobs with
  | nil => simpa [apply_lease_ops] using h
  | cons o os ih =>
    rw [apply_lease_ops, List.foldl_cons]
    exact ih _ (apply_lease_op_preserves_attempts_invariant svc jobs o h)

/-- C6: starting from a store where every job satisfies
`attempts ≤ max_attempts` and every running job `attempts < max_attempts`,
any sequence of Complete and RecoverExpired calls keeps
`attempts ≤ max_attempts` for every job. -/
theorem attempts_never_exceed_max (svc : LeasingService) (jobs : List Job)
    (ops : List LeaseOp) (h : attempts_invariant jobs) :
    ∀ j ∈ apply_lease_ops svc jobs ops, j.attempts ≤ j.max_attempts :=
  fun j hj =>
    (apply_lease_ops_preserves_attempts_invariant svc jobs ops h j hj).1

/-- The store after a first failed completion, used as concrete data. -/
def recoveredStore : List Job :=
  apply_lease_ops defaultService [runningLeasedJob]
    [LeaseOp.complete 1 "w1" false none 0]

theorem attempts_never_exceed_max_witness :
    (recoveredStore.headD sampleQueuedJob).attempts
      ≤ (recoveredStore.headD sampleQueuedJob).max_attempts :=
  attempts_never_exceed_max defaultService [runningLeasedJob]
    [LeaseOp.complete 1 "w1" false none 0] (by decide)
    (recoveredStore.headD sampleQueuedJob) (by decide)

/- ───────────────────────── C9: handler-not-found message ────────────────── -/

/-- Two registered handlers, mirroring the example handler module. -/
def exampleRegistry : HandlerRegistry :=
  { handlers :=
      [("send_email", fun _ => none),
       ("always_fail", fun p => some { exc_type := "ValueError", exc_message := p })] }

/-- A job addressed to a handler that is not registered. -/
def missingHandlerJob : Job :=
  { sampleQueuedJob with handler := "nonexistent_handler" }

/-- C9 counterexample: the failure message reads "Available handlers: [...]",
not "Available: [...]" as the claim words it. -/
theorem execute_handler_not_found_counterexample :
    (execute exampleRegistry missingHandlerJob 0).error_message
        = some "Handler 'nonexistent_handler' not registered. Available handlers: [always_fail, send_email]"
      ∧ (execute exampleRegistry missingHandlerJob 0).error_message
        ≠ some "Handler 'nonexistent_handler' not registered. Available: [always_fail, send_email]" := by
  constructor
  · decide
  · decide

/-- C9 amended: on a registry miss the executor returns a failure result whose
message is exactly "Handler '<name>' not registered. Available handlers: [...]"
where the bracket holds the registered names, sorted, joined by ", ". -/
theorem execute_handler_not_found (reg : HandlerRegistry) (j : Job) (d : Int)
    (h : registry_has reg j.handler = false) :
    (execute reg j d).success = false
      ∧ (execute reg j d).error_message
          = some ("Handler '" ++ j.handler
              ++ "' not registered. Available handlers: ["
              ++ String.intercalate ", " (sort_names (reg.handlers.map Prod.fst))
              ++ "]")
      ∧ (execute reg j d).duration_seconds = none
      ∧ (sort_names (reg.handlers.map Prod.fst)).Pairwise
          (fun a b => lex_le a.data b.data = true)
      ∧ (sort_names (reg.handlers.map Prod.fst)).Perm (reg.handlers.map Prod.fst) := by
  refine ⟨?_, ?_, ?_, ?_, ?_⟩
  · simp [execute, h]
  · simp [execute, h, handler_not_found_error, registry_names]
  · simp [execute, h]
  · exact sort_names_pairwise _
  · exact sort_names_perm _

theorem execute_handler_not_found_witness :
    (execute exampleRegistry missingHandlerJob 0).error_message
      = some "Handler 'nonexistent_handler' not registered. Available handlers: [always_fail, send_email]" :=
  (execute_handler_not_found exampleRegistry missingHandlerJob 0 (by decide)).2.1

/- ───────────────────────── C10: zero lease seconds ──────────────────────── -/

/-- C10: a lease_seconds of 0 is falsy to Python's `or`, so ClaimNext and
Heartbeat substitute the service default; the stamped lease expiry is
`now + default_lease_seconds`, strictly after now whenever the default is
positive. -/
theorem zero_lease_seconds_uses_default (svc : LeasingService)
    (jobs : List Job) (w : String) (q : List String) (jid : Nat) (t : Int) :
    py_or_int (some 0) svc.default_lease_seconds = svc.default_lease_seconds
      ∧ (∀ j, (claim_next_job svc jobs w q (some 0) t).1 = some j →
          j.lease_expires_at = some (t + svc.default_lease_seconds))
      ∧ ((heartbeat svc jobs jid w (some 0) t).1 = true →
          ∀ x ∈ (heartbeat svc jobs jid w (some 0) t).2, x.id = jid →
            x.lease_expires_at = some (t + svc.default_lease_seconds))
      ∧ (0 < svc.default_lease_seconds → t < t + svc.default_lease_seconds) := by
  refine ⟨rfl, ?_, ?_, by omega⟩
  · intro j hj
    cases hf : find_next_runnable_job jobs q t with
    | none => simp [claim_next_job, hf] at hj
    | some f =>
      simp only [claim_next_job, hf, Option.some.injEq] at hj
      rw [← hj]
      rfl
  · intro hb x hx hxid
    cases hg : get_by_id jobs jid with
    | none => simp [heartbeat, hg] at hb
    | some job =>
      by_cases howns : owns_lease (some job) w = true
      · simp only [heartbeat, hg, howns, not_true_eq_false, if_false] at hx
        rcases mem_update_job hx with heq | ⟨_, hne⟩
        · rw [heq]
          rfl
        · exact absurd (hxid.trans (get_by_id_some hg).2.symm) hne
      · have hof : owns_lease (some job) w = false := by simpa using howns
        simp [heartbeat, hg, hof] at hb

end JobOrch
